import Mathlib

/-!
Verification of the libturing encoder adapter
(src/libavcodec/libturing.c) against its specification.

The development shallowly embeds the two functions the claims are about:

* `libturing_encode_init`  — the configuration translator plus engine
  construction and the optional global-header extraction;
* `libturing_encode_frame` — the per-picture encode call.

Machine-level conventions of the C source that matter to the claims are
modelled explicitly:

* the 1024-byte backing store `char options[1024]` and the running write
  pointer `s`, with the exact semantics of
  `*p++ = s += 1 + snprintf(s, end - s, ...)`: when the remaining space
  `end - s` is positive but too small, `snprintf` stores a truncated
  string (at most `end - s - 1` characters) yet still returns the full
  untruncated length, so `s` advances past `end`; when `end - s` is not
  positive the call is undefined behaviour in C, which the model records
  in a `ub` flag (all arguments here are ASCII, so characters and bytes
  coincide);
* the 32-entry pointer array `char const* argv[32]`: the model counts
  every pointer store (`stores`), since the source never bounds-checks
  the store count against 32;
* external engine behaviour (`turing_create_encoder`,
  `turing_encode_headers`, `turing_encode_picture`) and allocation
  results are oracle inputs, as they are outside the adapter.
-/

namespace LibTuring

/-- FFmpeg error code AVERROR_INVALIDDATA, the negated MKTAG of INDA. -/
def AVERROR_INVALIDDATA : Int := -1094995529

/-- FFmpeg error code AVERROR_EXTERNAL, the negated MKTAG of EXT followed by a space. -/
def AVERROR_EXTERNAL : Int := -542398533

/-- FFmpeg error code AVERROR(ENOMEM) on Linux. -/
def AVERROR_ENOMEM : Int := -12

/-- Size of the fixed backing store `char options[1024]`. -/
def BUFSZ : Nat := 1024

/-- Number of entries of the fixed pointer array `char const* argv[32]`. -/
def ARGVSZ : Nat := 32

/-- State of the argument construction loop: the write offset of `s`
inside `options[1024]`, the argument strings as actually stored in the
buffer (possibly truncated by snprintf), the number of pointer stores
performed through `p`, and whether a snprintf call was ever issued with a
non-positive remaining size (undefined behaviour in the C source). -/
structure BufSt where
  off : Nat
  args : List String
  stores : Nat
  ub : Bool
  deriving Repr, DecidableEq

/-- One step `*p++ = s += 1 + snprintf(s, end - s, ...)` with intended
text `text`: if fewer than `text.length + 1` bytes remain, snprintf
stores a truncated copy but still returns the full length, so the
offset advances by `1 + text.length` regardless. -/
def emit (st : BufSt) (text : String) : BufSt :=
  if BUFSZ ≤ st.off then
    { st with
      off := st.off + 1 + text.length
      args := st.args ++ [text]
      stores := st.stores + 1
      ub := true }
  else
    let avail := BUFSZ - st.off
    let stored := if text.length < avail then text else text.take (avail - 1)
    { off := st.off + 1 + text.length
      args := st.args ++ [stored]
      stores := st.stores + 1
      ub := st.ub }

/-- Emit a sequence of argument texts in order. -/
def emitAll (st : BufSt) (ts : List String) : BufSt :=
  ts.foldl emit st

/-- Bytes consumed by a sequence of argument texts (each string plus its
terminating NUL). -/
def cost (ts : List String) : Nat :=
  (ts.map (fun t => t.length + 1)).sum

/-- The initial state: `s` at the start of the buffer, and one pointer
store already performed by the leading `*p++ = s`. -/
def st0 : BufSt :=
  { off := 0, args := [], stores := 1, ub := false }

/-- The reserved option keys rejected by `libturing_encode_init`. -/
def reservedKey (k : String) : Bool :=
  k = "input-res" || k = "frame-rate" || k = "f" || k = "frames" ||
  k = "sar" || k = "bit-depth" || k = "internal-bit-depth"

/-- Scaling used by the printf conversion `%f`: the rational scaled by
ten to the sixth and rounded to the nearest integer (see
`scaled6_eq_round`).  The C source computes the frame rate in `double`;
the model works with the exact rational, which agrees with the double
computation at every 6-decimal rounding that is not within the double
rounding error of a tie.  Written with explicit integer arithmetic so
that it evaluates inside the kernel. -/
def scaled6 (q : ℚ) : Int :=
  (2 * q.num * 1000000 + (q.den : Int)) / (2 * (q.den : Int))

/-- Reading a 6-decimal fixed-point integer back as a rational. -/
def parse_f6 (z : Int) : ℚ :=
  (z : ℚ) / 1000000

/-- Left-pad a digit string with zeros to width six. -/
def pad6 (s : String) : String :=
  String.mk (List.replicate (6 - s.length) '0') ++ s

/-- The text produced by the printf conversion `%f` (six digits after
the decimal point). -/
def fmt_f6 (q : ℚ) : String :=
  let z := scaled6 q
  let n := z.natAbs
  (if z < 0 then "-" else "") ++ toString (n / 1000000) ++ "." ++ pad6 (toString (n % 1000000))

/-- Modelled from the spec: `av_reduce` (libavutil/mathematics.c, not
under src/) reduces the ratio to lowest terms, and when the reduced
denominator still exceeds `mx` it returns a nearby fraction whose
denominator is bounded by `mx` ("reduce it to fit within a 16-bit
denominator bound"). -/
def av_reduce (num den mx : Nat) : Nat × Nat :=
  let g := Nat.gcd num den
  let n := num / g
  let d := den / g
  if d ≤ mx then (n, d)
  else
    let n2 := (n * mx + d / 2) / d
    let g2 := Nat.gcd n2 mx
    (n2 / g2, mx / g2)

/-- The inputs of `libturing_encode_init` drawn from `AVCodecContext`.
The user override string `ctx->options` is represented together with the
outcome of the external parser `av_dict_parse_string` (libavutil, not
under src/): `none` means the option string is absent, `some none` means
it is present but fails to parse, and `some (some l)` means it parses to
the key/value entries `l` in dictionary iteration order. -/
structure InitConfig where
  width : Int
  height : Int
  time_base_num : Int
  time_base_den : Int
  ticks_per_frame : Int
  bit_depth : Nat
  sar_num : Int
  sar_den : Int
  options : Option (Option (List (String × String)))
  deriving Repr, DecidableEq

/-- Oracle behaviour of the external engine and of the extradata
allocation during initialization. -/
structure InitEnv where
  createOk : Bool
  globalHeader : Bool
  headersSize : Int
  headersData : List Nat
  extradataAllocOk : Bool
  deriving Repr, DecidableEq

/-- Observable outcome of `libturing_encode_init`: the returned code,
the argument strings as stored in the backing buffer, `argc` as passed
to the engine, the warned-about override pairs, the total number of
pointer stores into `argv`, the undefined-behaviour flag of the buffer
model, the number of calls to `turing_destroy_encoder`, whether
`turing_create_encoder` was reached, and the extradata written. -/
structure InitOut where
  ret : Int
  args : List String
  argc : Int
  warnings : List (String × String)
  stores : Nat
  ub : Bool
  destroyCount : Nat
  createCalled : Bool
  extradataSize : Int
  extradata : Option (List Nat)
  deriving Repr, DecidableEq

/-- The text `--input-res=WxH`. -/
def inputResArg (cfg : InitConfig) : String :=
  "--input-res=" ++ toString cfg.width ++ "x" ++ toString cfg.height

/-- The frame rate `(double)avctx->time_base.den / (avctx->time_base.num
* avctx->ticks_per_frame)` as an exact rational (see
`frameRate_eq_div`; written with `Rat.divInt` so that it evaluates
inside the kernel). -/
def frameRate (cfg : InitConfig) : ℚ :=
  Rat.divInt cfg.time_base_den (cfg.time_base_num * cfg.ticks_per_frame)

theorem frameRate_eq_div (cfg : InitConfig) :
    frameRate cfg
      = (cfg.time_base_den : ℚ)
          / ((cfg.time_base_num * cfg.ticks_per_frame : Int) : ℚ) :=
  Rat.divInt_eq_div _ _

/-- The executable 6-decimal scaling is exactly rounding to the nearest
integer after scaling by ten to the sixth. -/
theorem scaled6_eq_round (q : ℚ) : scaled6 q = round (q * 1000000) := by
  have hden : ((q.den : ℚ)) ≠ 0 := by
    exact_mod_cast q.den_nz
  have key : q * 1000000 + 1 / 2
      = ((2 * q.num * 1000000 + (q.den : Int) : Int) : ℚ)
          / ((2 * q.den : ℕ) : ℚ) := by
    conv_lhs => rw [← Rat.num_div_den q]
    push_cast
    field_simp
    ring
  rw [round_eq, key, Rat.floor_intCast_div_natCast]
  unfold scaled6
  push_cast
  ring_nf

/-- The text `--frame-rate=F` with F printed by `%f`. -/
def frameRateArg (cfg : InitConfig) : String :=
  "--frame-rate=" ++ fmt_f6 (frameRate cfg)

/-- The two bit-depth argument texts. -/
def bitDepthArgs (d : Nat) : List String :=
  ["--bit-depth=" ++ toString d, "--internal-bit-depth=" ++ toString d]

/-- The sample-aspect-ratio argument texts: one `--sar=N:D` entry when
both components are strictly positive, nothing otherwise. -/
def sarArgs (cfg : InitConfig) : List String :=
  if 0 < cfg.sar_num ∧ 0 < cfg.sar_den then
    let r := av_reduce cfg.sar_num.toNat cfg.sar_den.toNat 65535
    ["--sar=" ++ toString r.1 ++ ":" ++ toString r.2]
  else []

/-- The override entries iterated by the dictionary loop: empty when the
option string is absent or fails to parse. -/
def overridePairs (cfg : InitConfig) : List (String × String) :=
  match cfg.options with
  | some (some l) => l
  | _ => []

/-- The text `--key=value` of one override pair. -/
def fmtOverride (kv : String × String) : String :=
  "--" ++ kv.1 ++ "=" ++ kv.2

/-- The argument texts emitted by the override loop: the non-reserved
pairs, verbatim, in order. -/
def overrideArgs (l : List (String × String)) : List String :=
  (l.filter (fun kv => ¬ reservedKey kv.1)).map fmtOverride

/-- The override pairs warned about by the override loop: the reserved
ones, in order. -/
def overrideWarnings (l : List (String × String)) : List (String × String) :=
  l.filter (fun kv => reservedKey kv.1)

/-- The argument texts emitted before the bit-depth validity check. -/
def preTexts (cfg : InitConfig) : List String :=
  ["turing", inputResArg cfg, frameRateArg cfg, "--frames=0"]

/-- All argument texts of a successful construction, in emission order:
the fixed arguments, the two bit-depth arguments, the optional sar
argument, the surviving overrides, and the trailing sentinel. -/
def argTexts (cfg : InitConfig) : List String :=
  preTexts cfg ++ bitDepthArgs cfg.bit_depth ++ sarArgs cfg ++
    overrideArgs (overridePairs cfg) ++ ["dummy-input-filename"]

/-- Buffer state after the emissions preceding the bit-depth check. -/
def preSt (cfg : InitConfig) : BufSt :=
  emitAll st0 (preTexts cfg)

/-- Buffer state after all emissions of a successful construction. -/
def buildSt (cfg : InitConfig) : BufSt :=
  emitAll st0 (argTexts cfg)

/-- The whole argument construction fits the 1024-byte backing store
(final write offset within bounds, hence no truncation anywhere). -/
def fits (cfg : InitConfig) : Prop :=
  cost (argTexts cfg) ≤ BUFSZ

instance (cfg : InitConfig) : Decidable (fits cfg) := by
  unfold fits; infer_instance

/-- Shallow embedding of `libturing_encode_init`.  The first branch is
the early return on an unsupported bit depth (which emits only the four
leading arguments, calls `turing_destroy_encoder` on the still-null
handle, and never reaches `turing_create_encoder`); the second branch
performs the full construction and then follows the engine-creation and
global-header paths of the source, with each observable field written as
the conditional over the oracle outcomes that the corresponding source
path produces. -/
def libturing_encode_init (cfg : InitConfig) (env : InitEnv) : InitOut :=
  if cfg.bit_depth ≠ 8 ∧ cfg.bit_depth ≠ 10 then
    let st := preSt cfg
    { ret := AVERROR_INVALIDDATA
      args := st.args
      argc := 0
      warnings := []
      stores := st.stores
      ub := st.ub
      destroyCount := 1
      createCalled := false
      extradataSize := 0
      extradata := none }
  else
    let st := buildSt cfg
    { ret :=
        if ¬ env.createOk then AVERROR_INVALIDDATA
        else if env.globalHeader then
          if env.headersSize ≤ 0 then AVERROR_INVALIDDATA
          else if ¬ env.extradataAllocOk then AVERROR_ENOMEM
          else 0
        else 0
      args := st.args
      argc := (st.stores : Int) - 1
      warnings := overrideWarnings (overridePairs cfg)
      stores := st.stores
      ub := st.ub
      destroyCount :=
        if env.createOk ∧ env.globalHeader ∧
            (env.headersSize ≤ 0 ∨ ¬ env.extradataAllocOk) then 1 else 0
      createCalled := true
      extradataSize :=
        if env.createOk ∧ env.globalHeader ∧ 0 < env.headersSize then
          env.headersSize
        else 0
      extradata :=
        if env.createOk ∧ env.globalHeader ∧ 0 < env.headersSize ∧
            env.extradataAllocOk then
          some (env.headersData.take env.headersSize.toNat)
        else none }

/-- One engine bitstream: the reported size and the bytes behind the
data pointer. -/
structure TuringBitstream where
  size : Int
  p : List Nat
  deriving Repr, DecidableEq

/-- One engine encode output `turing_encoder_output`: bitstream,
presentation timestamp, decode timestamp and keyframe flag. -/
structure TuringOutput where
  bitstream : TuringBitstream
  pts : Int
  dts : Int
  keyframe : Bool
  deriving Repr, DecidableEq

/-- One plane of a `turing_picture`: the plane pointer (opaque,
modelled as an identifier) and its stride. -/
structure TuringImage where
  p : Nat
  stride : Int
  deriving Repr, DecidableEq

/-- The `turing_picture` handed to `turing_encode_picture`. -/
structure TuringPicture where
  image0 : TuringImage
  image1 : TuringImage
  image2 : TuringImage
  pts : Int
  deriving Repr, DecidableEq

/-- The fields of the incoming `AVFrame` that the adapter reads: three
plane pointers (opaque identifiers), three strides, and the
presentation timestamp. -/
structure AVFrameModel where
  data0 : Nat
  data1 : Nat
  data2 : Nat
  linesize0 : Int
  linesize1 : Int
  linesize2 : Int
  pts : Int
  deriving Repr, DecidableEq

/-- The `turing_picture` built by `libturing_encode_frame` from an
incoming frame: field-by-field copies, nothing else. -/
def mkTuringPicture (pic : AVFrameModel) : TuringPicture :=
  { image0 := { p := pic.data0, stride := pic.linesize0 }
    image1 := { p := pic.data1, stride := pic.linesize1 }
    image2 := { p := pic.data2, stride := pic.linesize2 }
    pts := pic.pts }

/-- Observable outcome of one `libturing_encode_frame` call: an error
return, a zero return with no packet, or a zero return with exactly one
packet (its payload bytes, timestamps, and keyframe flag). -/
inductive FrameResult where
  | err (code : Int)
  | noPacket
  | packet (data : List Nat) (pts : Int) (dts : Int) (keyframe : Bool)
  deriving Repr, DecidableEq

/-- Interpretation of the engine output by `libturing_encode_frame`:
negative size returns AVERROR_EXTERNAL; zero size returns success with
no packet; positive size allocates a packet (`allocRet` is the oracle
result of `ff_alloc_packet`, negative on failure and returned as-is),
copies exactly `size` bytes of the bitstream, and copies the
presentation timestamp, decode timestamp and keyframe flag through. -/
def processOutput (output : TuringOutput) (allocRet : Int) : FrameResult :=
  if output.bitstream.size < 0 then .err AVERROR_EXTERNAL
  else if output.bitstream.size = 0 then .noPacket
  else if allocRet < 0 then .err allocRet
  else
    .packet (output.bitstream.p.take output.bitstream.size.toNat)
      output.pts output.dts output.keyframe

/-- Shallow embedding of `libturing_encode_frame`: build the
`turing_picture` when a frame is present (a null `pic` is the flush
call), invoke the engine once, and interpret its output. -/
def libturing_encode_frame (engine : Option TuringPicture → TuringOutput)
    (pic : Option AVFrameModel) (allocRet : Int) : FrameResult :=
  processOutput (engine (pic.map mkTuringPicture)) allocRet

/-! ## Structural lemmas about the buffer model -/

theorem emit_off (st : BufSt) (t : String) :
    (emit st t).off = st.off + 1 + t.length := by
  unfold emit
  split <;> rfl

theorem emit_stores (st : BufSt) (t : String) :
    (emit st t).stores = st.stores + 1 := by
  unfold emit
  split <;> rfl

theorem emitAll_off (ts : List String) (st : BufSt) :
    (emitAll st ts).off = st.off + cost ts := by
  induction ts generalizing st with
  | nil => simp [emitAll, cost]
  | cons t ts ih =>
    have h1 : emitAll st (t :: ts) = emitAll (emit st t) ts := rfl
    rw [h1, ih, emit_off]
    simp [cost]
    omega

theorem emitAll_stores (ts : List String) (st : BufSt) :
    (emitAll st ts).stores = st.stores + ts.length := by
  induction ts generalizing st with
  | nil => rfl
  | cons t ts ih =>
    have h1 : emitAll st (t :: ts) = emitAll (emit st t) ts := rfl
    rw [h1, ih, emit_stores]
    simp
    omega

theorem emit_args_of_room (st : BufSt) (t : String)
    (h : st.off + t.length + 1 ≤ BUFSZ) :
    (emit st t).args = st.args ++ [t] := by
  unfold emit
  have hoff : ¬ BUFSZ ≤ st.off := by omega
  rw [if_neg hoff]
  have hlt : t.length < BUFSZ - st.off := by omega
  simp only [hlt, if_pos]

theorem emit_ub_of_room (st : BufSt) (t : String)
    (h : st.off + t.length + 1 ≤ BUFSZ) :
    (emit st t).ub = st.ub := by
  unfold emit
  have hoff : ¬ BUFSZ ≤ st.off := by omega
  rw [if_neg hoff]

theorem emitAll_args_of_fits (ts : List String) (st : BufSt)
    (h : st.off + cost ts ≤ BUFSZ) :
    (emitAll st ts).args = st.args ++ ts ∧ (emitAll st ts).ub = st.ub := by
  induction ts generalizing st with
  | nil => simp [emitAll]
  | cons t ts ih =>
    have hc : cost (t :: ts) = (t.length + 1) + cost ts := by
      simp [cost]
    have hroom : st.off + t.length + 1 ≤ BUFSZ := by omega
    have h1 : emitAll st (t :: ts) = emitAll (emit st t) ts := rfl
    have hrec := ih (emit st t) (by rw [emit_off]; omega)
    rw [h1, hrec.1, hrec.2, emit_args_of_room st t hroom,
      emit_ub_of_room st t hroom]
    exact ⟨by simp, rfl⟩

/-! ## Projections of the initialization outcome -/

theorem valid_depth_not_reject {d : Nat} (hd : d = 8 ∨ d = 10) :
    ¬ (d ≠ 8 ∧ d ≠ 10) := by
  rcases hd with h | h <;> simp [h]

theorem init_args (cfg : InitConfig) (env : InitEnv)
    (hd : cfg.bit_depth = 8 ∨ cfg.bit_depth = 10) :
    (libturing_encode_init cfg env).args = (buildSt cfg).args := by
  unfold libturing_encode_init
  rw [if_neg (valid_depth_not_reject hd)]

theorem init_stores (cfg : InitConfig) (env : InitEnv)
    (hd : cfg.bit_depth = 8 ∨ cfg.bit_depth = 10) :
    (libturing_encode_init cfg env).stores = (buildSt cfg).stores := by
  unfold libturing_encode_init
  rw [if_neg (valid_depth_not_reject hd)]

theorem init_warnings (cfg : InitConfig) (env : InitEnv)
    (hd : cfg.bit_depth = 8 ∨ cfg.bit_depth = 10) :
    (libturing_encode_init cfg env).warnings
      = overrideWarnings (overridePairs cfg) := by
  unfold libturing_encode_init
  rw [if_neg (valid_depth_not_reject hd)]

theorem buildSt_args (cfg : InitConfig) (hf : fits cfg) :
    (buildSt cfg).args = argTexts cfg := by
  have h := emitAll_args_of_fits (argTexts cfg) st0 (by
    have : st0.off = 0 := rfl
    rw [this]
    simpa using hf)
  simpa [buildSt, st0] using h.1

theorem init_args_of_fits (cfg : InitConfig) (env : InitEnv)
    (hd : cfg.bit_depth = 8 ∨ cfg.bit_depth = 10) (hf : fits cfg) :
    (libturing_encode_init cfg env).args = argTexts cfg := by
  rw [init_args cfg env hd, buildSt_args cfg hf]

theorem buildSt_stores (cfg : InitConfig) :
    (buildSt cfg).stores
      = 8 + (sarArgs cfg).length + (overrideArgs (overridePairs cfg)).length := by
  unfold buildSt
  rw [emitAll_stores]
  simp [st0, argTexts, preTexts, bitDepthArgs]
  omega

/-! ## Claim theorems -/

/-- C2: for every encode call the adapter result is determined by the
engine-reported bitstream size: negative size returns the encode-failed
error AVERROR_EXTERNAL and produces no packet; zero size returns success
with no packet; positive size (when packet allocation succeeds) produces
exactly one packet whose payload is a byte-for-byte copy of exactly
`size` bytes of the engine bitstream and whose presentation timestamp,
decode timestamp, and keyframe flag are the engine output unchanged. -/
theorem encode_result_by_size (engine : Option TuringPicture → TuringOutput)
    (pic : Option AVFrameModel) (allocRet : Int) (output : TuringOutput)
    (hout : engine (pic.map mkTuringPicture) = output) (hAlloc : 0 ≤ allocRet) :
    (output.bitstream.size < 0 →
      libturing_encode_frame engine pic allocRet = FrameResult.err AVERROR_EXTERNAL) ∧
    (output.bitstream.size = 0 →
      libturing_encode_frame engine pic allocRet = FrameResult.noPacket) ∧
    (0 < output.bitstream.size →
      libturing_encode_frame engine pic allocRet
        = FrameResult.packet (output.bitstream.p.take output.bitstream.size.toNat)
            output.pts output.dts output.keyframe) ∧
    (0 < output.bitstream.size →
      output.bitstream.size.toNat ≤ output.bitstream.p.length →
      (output.bitstream.p.take output.bitstream.size.toNat).length
        = output.bitstream.size.toNat) := by
  unfold libturing_encode_frame processOutput
  rw [hout]
  refine ⟨fun hneg => ?_, fun hzero => ?_, fun hpos => ?_, fun hpos hlen => ?_⟩
  · rw [if_pos hneg]
  · rw [if_neg (by omega), if_pos hzero]
  · rw [if_neg (by omega), if_neg (by omega), if_neg (by omega)]
  · simp [List.length_take]
    omega

/-- Concrete run of `encode_result_by_size`: an engine reporting a
3-byte bitstream of which size 2 is claimed yields one packet with the
first two bytes and the engine timestamps and keyframe flag. -/
def engW : Option TuringPicture → TuringOutput :=
  fun _ => { bitstream := { size := 2, p := [7, 8, 9] }, pts := 5, dts := 4, keyframe := true }

theorem encode_result_by_size_witness :
    libturing_encode_frame engW none 0 = FrameResult.packet [7, 8] 5 4 true := by
  have h := (encode_result_by_size engW none 0 (engW none) rfl (by decide)).2.2.1 (by decide)
  exact h.trans (by decide)

/-- C5: the adapter passes the three plane pointers, three strides and
the presentation timestamp of a real picture to the engine unmodified
(the engine is invoked once, on exactly the field-by-field copy of the
frame, and the adapter touches no pixel data), and whenever the engine
output references the submitted presentation timestamp, the emitted
packet carries that timestamp exactly, along with the engine decode
timestamp. -/
theorem picture_passthrough (engine : Option TuringPicture → TuringOutput)
    (pic : AVFrameModel) (allocRet : Int) :
    (libturing_encode_frame engine (some pic) allocRet
      = processOutput
          (engine (some ⟨⟨pic.data0, pic.linesize0⟩, ⟨pic.data1, pic.linesize1⟩,
            ⟨pic.data2, pic.linesize2⟩, pic.pts⟩)) allocRet) ∧
    (mkTuringPicture pic).image0.p = pic.data0 ∧
    (mkTuringPicture pic).image1.p = pic.data1 ∧
    (mkTuringPicture pic).image2.p = pic.data2 ∧
    (mkTuringPicture pic).image0.stride = pic.linesize0 ∧
    (mkTuringPicture pic).image1.stride = pic.linesize1 ∧
    (mkTuringPicture pic).image2.stride = pic.linesize2 ∧
    (mkTuringPicture pic).pts = pic.pts ∧
    ((engine (some (mkTuringPicture pic))).pts = pic.pts →
      ∀ d p dt k,
        libturing_encode_frame engine (some pic) allocRet = FrameResult.packet d p dt k →
        p = pic.pts ∧ dt = (engine (some (mkTuringPicture pic))).dts) := by
  refine ⟨rfl, rfl, rfl, rfl, rfl, rfl, rfl, rfl, fun hT d p dt k heq => ?_⟩
  unfold libturing_encode_frame processOutput at heq
  split_ifs at heq
  simp only [FrameResult.packet.injEq] at heq
  exact ⟨heq.2.1.symm.trans hT, heq.2.2.1.symm⟩

/-- An engine that echoes the presentation timestamp of the submitted
picture, used to run `picture_passthrough` concretely. -/
def engPts : Option TuringPicture → TuringOutput :=
  fun op =>
    { bitstream := { size := 1, p := [9] }
      pts := match op with | some tp => tp.pts | none => 0
      dts := 2
      keyframe := false }

/-- A concrete incoming frame with presentation timestamp 42. -/
def pic0 : AVFrameModel :=
  { data0 := 1, data1 := 2, data2 := 3, linesize0 := 100, linesize1 := 50,
    linesize2 := 50, pts := 42 }

theorem picture_passthrough_witness :
    (42 : Int) = pic0.pts ∧
    libturing_encode_frame engPts (some pic0) 0
      = processOutput (engPts (some ⟨⟨1, 100⟩, ⟨2, 50⟩, ⟨3, 50⟩, 42⟩)) 0 := by
  refine ⟨?_, (picture_passthrough engPts pic0 0).1⟩
  have h := (picture_passthrough engPts pic0 0).2.2.2.2.2.2.2.2 (by decide)
    [9] 42 2 false (by decide)
  exact h.1

/-- C3: for bit depth 8 or 10 (and a backing store large enough to hold
the formatted arguments), the constructed list contains both
`--bit-depth=n` and `--internal-bit-depth=n` with the same validated
value; for any other bit depth, initialization returns
AVERROR_INVALIDDATA without ever reaching `turing_create_encoder`. -/
theorem bit_depth_args_and_rejection (cfg : InitConfig) (env : InitEnv) :
    ((cfg.bit_depth = 8 ∨ cfg.bit_depth = 10) → fits cfg →
      ("--bit-depth=" ++ toString cfg.bit_depth)
          ∈ (libturing_encode_init cfg env).args ∧
      ("--internal-bit-depth=" ++ toString cfg.bit_depth)
          ∈ (libturing_encode_init cfg env).args) ∧
    (cfg.bit_depth ≠ 8 → cfg.bit_depth ≠ 10 →
      (libturing_encode_init cfg env).ret = AVERROR_INVALIDDATA ∧
      (libturing_encode_init cfg env).createCalled = false) := by
  constructor
  · intro hd hf
    rw [init_args_of_fits cfg env hd hf]
    unfold argTexts bitDepthArgs
    constructor <;> simp
  · intro h8 h10
    unfold libturing_encode_init
    rw [if_pos ⟨h8, h10⟩]
    exact ⟨rfl, rfl⟩

/-- The engine oracle of the witness runs: creation succeeds and no
global header is requested. -/
def env0 : InitEnv :=
  { createOk := true, globalHeader := false, headersSize := 0,
    headersData := [], extradataAllocOk := true }

/-- A well-formed 10-bit configuration without overrides. -/
def cfgW3 : InitConfig :=
  { width := 1920, height := 1080, time_base_num := 1, time_base_den := 25,
    ticks_per_frame := 1, bit_depth := 10, sar_num := 0, sar_den := 1,
    options := none }

/-- The same configuration with the unsupported bit depth 12. -/
def cfgW3bad : InitConfig :=
  { cfgW3 with bit_depth := 12 }

theorem bit_depth_args_and_rejection_witness :
    "--bit-depth=10" ∈ (libturing_encode_init cfgW3 env0).args ∧
    "--internal-bit-depth=10" ∈ (libturing_encode_init cfgW3 env0).args ∧
    (libturing_encode_init cfgW3bad env0).ret = AVERROR_INVALIDDATA ∧
    (libturing_encode_init cfgW3bad env0).createCalled = false := by
  have h1 := (bit_depth_args_and_rejection cfgW3 env0).1 (Or.inr rfl) (by decide)
  have h2 := (bit_depth_args_and_rejection cfgW3bad env0).2 (by decide) (by decide)
  exact ⟨h1.1, h1.2, h2.1, h2.2⟩

/-- C4: with a parsed override mapping, the constructed argument list is
exactly the fixed arguments followed by the verbatim `--key=value`
renderings of the non-reserved pairs and the sentinel; the recorded
warnings are exactly the reserved pairs; hence every non-reserved pair
appears verbatim in the final list and every reserved pair is dropped
into a warning while initialization proceeds. -/
theorem override_filtering (cfg : InitConfig) (env : InitEnv)
    (l : List (String × String)) (hl : cfg.options = some (some l))
    (hd : cfg.bit_depth = 8 ∨ cfg.bit_depth = 10) (hf : fits cfg) :
    (libturing_encode_init cfg env).args
      = preTexts cfg ++ bitDepthArgs cfg.bit_depth ++ sarArgs cfg
          ++ (l.filter (fun kv => ¬ reservedKey kv.1)).map fmtOverride
          ++ ["dummy-input-filename"] ∧
    (libturing_encode_init cfg env).warnings
      = l.filter (fun kv => reservedKey kv.1) ∧
    (∀ kv ∈ l, reservedKey kv.1 = false →
      fmtOverride kv ∈ (libturing_encode_init cfg env).args) ∧
    (∀ kv ∈ l, reservedKey kv.1 = true →
      kv ∈ (libturing_encode_init cfg env).warnings) := by
  have hpairs : overridePairs cfg = l := by
    unfold overridePairs
    rw [hl]
  have hargs : (libturing_encode_init cfg env).args
      = preTexts cfg ++ bitDepthArgs cfg.bit_depth ++ sarArgs cfg
          ++ (l.filter (fun kv => ¬ reservedKey kv.1)).map fmtOverride
          ++ ["dummy-input-filename"] := by
    rw [init_args_of_fits cfg env hd hf]
    unfold argTexts overrideArgs
    rw [hpairs]
  have hw : (libturing_encode_init cfg env).warnings
      = l.filter (fun kv => reservedKey kv.1) := by
    rw [init_warnings cfg env hd]
    unfold overrideWarnings
    rw [hpairs]
  refine ⟨hargs, hw, fun kv hkv hres => ?_, fun kv hkv hres => ?_⟩
  · rw [hargs]
    have hmem : fmtOverride kv
        ∈ (l.filter (fun kv => ¬ reservedKey kv.1)).map fmtOverride := by
      exact List.mem_map_of_mem _ (List.mem_filter.mpr ⟨hkv, by simp [hres]⟩)
    simp only [List.mem_append]
    exact Or.inl (Or.inr hmem)
  · rw [hw]
    exact List.mem_filter.mpr ⟨hkv, by simp [hres]⟩

/-- The spec scenario: overrides frames=100 (reserved) and preset=fast
(non-reserved). -/
def cfgW4 : InitConfig :=
  { cfgW3 with options := some (some [("frames", "100"), ("preset", "fast")]) }

theorem override_filtering_witness :
    "--preset=fast" ∈ (libturing_encode_init cfgW4 env0).args ∧
    ("frames", "100") ∈ (libturing_encode_init cfgW4 env0).warnings := by
  have h := override_filtering cfgW4 env0 [("frames", "100"), ("preset", "fast")]
    rfl (Or.inr rfl) (by decide)
  refine ⟨?_, h.2.2.2 ("frames", "100") (by simp) (by decide)⟩
  have hp := h.2.2.1 ("preset", "fast") (by simp) (by decide)
  exact hp

/-- C6: when out-of-band global headers are requested and the engine
header call reports a non-positive size, initialization fails with
AVERROR_INVALIDDATA and the engine handle is destroyed exactly once; on
the subsequent extradata allocation-failure path the handle is likewise
destroyed exactly once and AVERROR(ENOMEM) is returned. -/
theorem header_failure_destroys_once (cfg : InitConfig) (env : InitEnv)
    (hd : cfg.bit_depth = 8 ∨ cfg.bit_depth = 10)
    (hc : env.createOk = true) (hg : env.globalHeader = true) :
    (env.headersSize ≤ 0 →
      (libturing_encode_init cfg env).ret = AVERROR_INVALIDDATA ∧
      (libturing_encode_init cfg env).destroyCount = 1 ∧
      (libturing_encode_init cfg env).extradata = none) ∧
    (0 < env.headersSize → env.extradataAllocOk = false →
      (libturing_encode_init cfg env).ret = AVERROR_ENOMEM ∧
      (libturing_encode_init cfg env).destroyCount = 1 ∧
      (libturing_encode_init cfg env).extradata = none) := by
  unfold libturing_encode_init
  rw [if_neg (valid_depth_not_reject hd)]
  constructor
  · intro hsz
    refine ⟨?_, ?_, ?_⟩
    · simp [hc, hg, hsz]
    · simp [hc, hg, hsz]
    · simp [hc, hg]
      omega
  · intro hsz halloc
    refine ⟨?_, ?_, ?_⟩
    · simp [hc, hg, halloc]
      omega
    · simp [hc, hg, halloc]
    · simp [hc, hg, halloc]

/-- Oracles for the two header failure paths: header generation
reporting size 0, and a 3-byte header with a failing extradata
allocation. -/
def envH : InitEnv :=
  { createOk := true, globalHeader := true, headersSize := 0,
    headersData := [], extradataAllocOk := true }

def envH2 : InitEnv :=
  { createOk := true, globalHeader := true, headersSize := 3,
    headersData := [1, 2, 3], extradataAllocOk := false }

theorem header_failure_destroys_once_witness :
    (libturing_encode_init cfgW3 envH).ret = AVERROR_INVALIDDATA ∧
    (libturing_encode_init cfgW3 envH).destroyCount = 1 ∧
    (libturing_encode_init cfgW3 envH2).ret = AVERROR_ENOMEM ∧
    (libturing_encode_init cfgW3 envH2).destroyCount = 1 := by
  have h1 := (header_failure_destroys_once cfgW3 envH (Or.inr rfl) rfl rfl).1 (by decide)
  have h2 := (header_failure_destroys_once cfgW3 envH2 (Or.inr rfl) rfl rfl).2 (by decide) rfl
  exact ⟨h1.1, h1.2.1, h2.1, h2.2.1⟩

/-- C10: when the override string is present but fails to parse, the
whole initialization behaves exactly as if no override string had been
given: the same outcome with only the fixed arguments, no warning
recorded, and success when the engine construction succeeds. -/
theorem unparsable_options_silently_dropped (cfg : InitConfig) (env : InitEnv)
    (h : cfg.options = some none) :
    libturing_encode_init cfg env
      = libturing_encode_init { cfg with options := none } env ∧
    (libturing_encode_init cfg env).warnings = [] ∧
    ((cfg.bit_depth = 8 ∨ cfg.bit_depth = 10) → env.createOk = true →
      env.globalHeader = false → (libturing_encode_init cfg env).ret = 0) := by
  have hpairs : overridePairs cfg = overridePairs { cfg with options := none } := by
    unfold overridePairs
    rw [h]
  have htexts : argTexts cfg = argTexts { cfg with options := none } := by
    unfold argTexts preTexts inputResArg frameRateArg frameRate sarArgs
    rw [hpairs]
  have hpre : preTexts cfg = preTexts { cfg with options := none } := rfl
  refine ⟨?_, ?_, ?_⟩
  · unfold libturing_encode_init
    unfold buildSt preSt
    rw [htexts, hpre, hpairs]
  · unfold libturing_encode_init
    split
    · rfl
    · show overrideWarnings (overridePairs cfg) = []
      unfold overrideWarnings overridePairs
      rw [h]
      rfl
  · intro hd hc hg
    unfold libturing_encode_init
    rw [if_neg (valid_depth_not_reject hd)]
    simp [hc, hg]

/-- A present-but-unparsable override string on top of the well-formed
configuration. -/
def cfgW10 : InitConfig :=
  { cfgW3 with options := some none }

theorem unparsable_options_silently_dropped_witness :
    (libturing_encode_init cfgW10 env0).warnings = [] ∧
    (libturing_encode_init cfgW10 env0).ret = 0 :=
  ⟨(unparsable_options_silently_dropped cfgW10 env0 rfl).2.1,
   (unparsable_options_silently_dropped cfgW10 env0 rfl).2.2 (Or.inr rfl) rfl rfl⟩

/-- The spec-modelled `av_reduce` returns a coprime pair whose
denominator is positive and bounded by `mx`, and agrees with the exact
gcd reduction whenever that reduction already fits the bound. -/
theorem av_reduce_spec (num den mx : Nat) (hn : 0 < num) (hd : 0 < den)
    (hmx : 0 < mx) :
    Nat.Coprime (av_reduce num den mx).1 (av_reduce num den mx).2 ∧
    0 < (av_reduce num den mx).2 ∧
    (av_reduce num den mx).2 ≤ mx ∧
    (den / Nat.gcd num den ≤ mx →
      av_reduce num den mx
        = (num / Nat.gcd num den, den / Nat.gcd num den)) := by
  unfold av_reduce
  have hg : 0 < Nat.gcd num den := Nat.gcd_pos_of_pos_left den hn
  by_cases hfit : den / Nat.gcd num den ≤ mx
  · rw [if_pos hfit]
    refine ⟨Nat.coprime_div_gcd_div_gcd hg, ?_, hfit, fun _ => rfl⟩
    exact Nat.div_pos (Nat.le_of_dvd hd (Nat.gcd_dvd_right num den)) hg
  · rw [if_neg hfit]
    have hg2 : 0 < Nat.gcd ((num / Nat.gcd num den * mx + den / Nat.gcd num den / 2)
        / (den / Nat.gcd num den)) mx := Nat.gcd_pos_of_pos_right _ hmx
    refine ⟨Nat.coprime_div_gcd_div_gcd hg2, ?_, Nat.div_le_self mx _,
      fun hc => absurd hc hfit⟩
    exact Nat.div_pos (Nat.le_of_dvd hmx (Nat.gcd_dvd_right _ mx)) hg2

/-- C7: the `--sar=N:D` argument is emitted exactly when both
sample-aspect-ratio components are strictly positive; in that case the
emitted pair is the `av_reduce` result, which is in reduced (coprime)
form with a positive denominator bounded by 65535, and equals the exact
gcd reduction of the configured ratio whenever that reduction fits the
16-bit bound; every emitted sar string reaches the constructed argument
list. -/
theorem sar_emission (cfg : InitConfig) (env : InitEnv)
    (hd : cfg.bit_depth = 8 ∨ cfg.bit_depth = 10) (hf : fits cfg) :
    (sarArgs cfg = [] ↔ ¬ (0 < cfg.sar_num ∧ 0 < cfg.sar_den)) ∧
    (∀ a ∈ sarArgs cfg, a ∈ (libturing_encode_init cfg env).args) ∧
    (0 < cfg.sar_num → 0 < cfg.sar_den →
      sarArgs cfg
        = ["--sar="
            ++ toString (av_reduce cfg.sar_num.toNat cfg.sar_den.toNat 65535).1
            ++ ":"
            ++ toString (av_reduce cfg.sar_num.toNat cfg.sar_den.toNat 65535).2] ∧
      Nat.Coprime (av_reduce cfg.sar_num.toNat cfg.sar_den.toNat 65535).1
        (av_reduce cfg.sar_num.toNat cfg.sar_den.toNat 65535).2 ∧
      0 < (av_reduce cfg.sar_num.toNat cfg.sar_den.toNat 65535).2 ∧
      (av_reduce cfg.sar_num.toNat cfg.sar_den.toNat 65535).2 ≤ 65535 ∧
      (cfg.sar_den.toNat / Nat.gcd cfg.sar_num.toNat cfg.sar_den.toNat ≤ 65535 →
        av_reduce cfg.sar_num.toNat cfg.sar_den.toNat 65535
          = (cfg.sar_num.toNat / Nat.gcd cfg.sar_num.toNat cfg.sar_den.toNat,
             cfg.sar_den.toNat / Nat.gcd cfg.sar_num.toNat cfg.sar_den.toNat))) := by
  refine ⟨?_, ?_, ?_⟩
  · unfold sarArgs
    split_ifs with h
    · simp [h]
    · simp [h]
  · intro a ha
    rw [init_args_of_fits cfg env hd hf]
    unfold argTexts
    simp only [List.mem_append]
    exact Or.inl (Or.inl (Or.inr ha))
  · intro hn hdpos
    have hn2 : 0 < cfg.sar_num.toNat := by omega
    have hd2 : 0 < cfg.sar_den.toNat := by omega
    have hred := av_reduce_spec cfg.sar_num.toNat cfg.sar_den.toNat 65535 hn2 hd2
      (by norm_num)
    refine ⟨?_, hred.1, hred.2.1, hred.2.2.1, hred.2.2.2⟩
    unfold sarArgs
    rw [if_pos ⟨hn, hdpos⟩]

/-- Configuration with the non-reduced sample aspect ratio 300000 to
200000; `av_reduce` brings it to 3:2. -/
def cfgW7 : InitConfig :=
  { cfgW3 with sar_num := 300000, sar_den := 200000 }

theorem sar_emission_witness :
    "--sar=3:2" ∈ (libturing_encode_init cfgW7 env0).args :=
  (sar_emission cfgW7 env0 (Or.inr rfl) (by decide)).2.1 "--sar=3:2" (by decide)

/-- C8: the emitted frame-rate argument is the text `--frame-rate=F`
where F is `time_base.den / (time_base.num * ticks_per_frame)` printed
by the 6-decimal conversion of printf `%f` (6-decimal rounding of the
exact value, `scaled6_eq_round`), and six decimals carry enough
precision for the common broadcast rates: for 24000/1001, 30000/1001
and 60000/1001 the printed value differs from the exact rate by less
than one millionth, and the three printed texts are the expected
distinct representations. -/
theorem frame_rate_argument (cfg : InitConfig) (env : InitEnv)
    (hd : cfg.bit_depth = 8 ∨ cfg.bit_depth = 10) (hf : fits cfg) :
    frameRateArg cfg ∈ (libturing_encode_init cfg env).args ∧
    frameRateArg cfg
      = "--frame-rate=" ++ fmt_f6 ((cfg.time_base_den : ℚ)
          / ((cfg.time_base_num * cfg.ticks_per_frame : Int) : ℚ)) ∧
    scaled6 (frameRate cfg) = round (frameRate cfg * 1000000) ∧
    |parse_f6 (scaled6 ((24000 : ℚ) / 1001)) - (24000 : ℚ) / 1001| < 1 / 1000000 ∧
    |parse_f6 (scaled6 ((30000 : ℚ) / 1001)) - (30000 : ℚ) / 1001| < 1 / 1000000 ∧
    |parse_f6 (scaled6 ((60000 : ℚ) / 1001)) - (60000 : ℚ) / 1001| < 1 / 1000000 ∧
    fmt_f6 ((24000 : ℚ) / 1001) = "23.976024" ∧
    fmt_f6 ((30000 : ℚ) / 1001) = "29.970030" ∧
    fmt_f6 ((60000 : ℚ) / 1001) = "59.940060" := by
  refine ⟨?_, ?_, scaled6_eq_round (frameRate cfg), ?_, ?_, ?_, ?_, ?_, ?_⟩
  · rw [init_args_of_fits cfg env hd hf]
    unfold argTexts
    simp only [List.mem_append]
    refine Or.inl (Or.inl (Or.inl (Or.inl ?_)))
    unfold preTexts
    simp
  · unfold frameRateArg
    rw [frameRate_eq_div]
  · norm_num [scaled6, parse_f6]
    rw [abs_of_pos (by norm_num)]
    norm_num
  · norm_num [scaled6, parse_f6]
    rw [abs_of_pos (by norm_num)]
    norm_num
  · norm_num [scaled6, parse_f6]
    rw [abs_of_pos (by norm_num)]
    norm_num
  · rw [show (24000 : ℚ) / 1001 = Rat.divInt 24000 1001 from
      (Rat.divInt_eq_div 24000 1001).symm]
    decide
  · rw [show (30000 : ℚ) / 1001 = Rat.divInt 30000 1001 from
      (Rat.divInt_eq_div 30000 1001).symm]
    decide
  · rw [show (60000 : ℚ) / 1001 = Rat.divInt 60000 1001 from
      (Rat.divInt_eq_div 60000 1001).symm]
    decide

/-- The NTSC 29.97 configuration: time base 1001/30000 with one tick
per frame. -/
def cfgW8 : InitConfig :=
  { cfgW3 with time_base_num := 1001, time_base_den := 30000 }

theorem frame_rate_argument_witness :
    frameRateArg cfgW8 ∈ (libturing_encode_init cfgW8 env0).args ∧
    frameRateArg cfgW8 = "--frame-rate=29.970030" :=
  ⟨(frame_rate_argument cfgW8 env0 (Or.inr rfl) (by decide)).1, by decide⟩

/-- A non-empty sar emission is exactly one argument. -/
theorem sarArgs_length_of_ne_nil (cfg : InitConfig) (h : sarArgs cfg ≠ []) :
    (sarArgs cfg).length = 1 := by
  unfold sarArgs at h ⊢
  split_ifs at h ⊢ with hc
  · rfl
  · exact absurd rfl h

/-- C9 (amended): argument construction performs one unconditional
pointer store per emitted argument with no bound check against the
32-entry `argv` array: the total store count is 8 (initial store, the
six fixed arguments, the sentinel) plus one for the sar argument when
emitted plus one per non-reserved override pair; hence a mapping with
at least 25 non-reserved keys (at least 24 when the sar argument is
emitted) stores pointers past the end of the array. -/
theorem argv_store_count (cfg : InitConfig) (env : InitEnv)
    (hd : cfg.bit_depth = 8 ∨ cfg.bit_depth = 10) :
    (libturing_encode_init cfg env).stores
      = 8 + (sarArgs cfg).length + (overrideArgs (overridePairs cfg)).length ∧
    (25 ≤ (overrideArgs (overridePairs cfg)).length →
      ARGVSZ < (libturing_encode_init cfg env).stores) ∧
    (sarArgs cfg ≠ [] → 24 ≤ (overrideArgs (overridePairs cfg)).length →
      ARGVSZ < (libturing_encode_init cfg env).stores) := by
  have hst : (libturing_encode_init cfg env).stores
      = 8 + (sarArgs cfg).length + (overrideArgs (overridePairs cfg)).length := by
    rw [init_stores cfg env hd, buildSt_stores]
  refine ⟨hst, fun h25 => ?_, fun hsar h24 => ?_⟩
  · rw [hst]
    unfold ARGVSZ
    omega
  · have h1 := sarArgs_length_of_ne_nil cfg hsar
    rw [hst, h1]
    unfold ARGVSZ
    omega

/-- 23 distinct non-reserved override keys. -/
def keys23 : List (String × String) :=
  (List.range 23).map (fun i => ("k" ++ toString i, "1"))

/-- A configuration with a sar argument and 23 non-reserved overrides:
more than 22 non-reserved keys, yet every pointer store is within the
32-entry array. -/
def cfg23 : InitConfig :=
  { width := 1920, height := 1080, time_base_num := 1, time_base_den := 25,
    ticks_per_frame := 1, bit_depth := 8, sar_num := 4, sar_den := 3,
    options := some (some keys23) }

set_option maxRecDepth 100000 in
/-- C9 (counterexample to the stated threshold): an override mapping
with 23 non-reserved keys — more than 22 — even together with an
emitted sar argument performs exactly 32 pointer stores, none past the
end of the 32-entry array. -/
theorem stores_within_bounds_at_23_overrides :
    22 < (overrideArgs (overridePairs cfg23)).length ∧
    (sarArgs cfg23).length = 1 ∧
    (libturing_encode_init cfg23 env0).stores = 32 ∧
    ¬ ARGVSZ < (libturing_encode_init cfg23 env0).stores := by
  refine ⟨by decide, by decide, by decide, by decide⟩

/-- 24 distinct non-reserved override keys. -/
def keys24 : List (String × String) :=
  (List.range 24).map (fun i => ("k" ++ toString i, "1"))

/-- The same configuration with 24 non-reserved overrides. -/
def cfg24 : InitConfig :=
  { cfg23 with options := some (some keys24) }

set_option maxRecDepth 100000 in
theorem argv_store_count_witness :
    ARGVSZ < (libturing_encode_init cfg24 env0).stores :=
  (argv_store_count cfg24 env0 (Or.inl rfl)).2.2 (by decide) (by decide)

/-- A 910-character override value, tuned so that the backing store is
exhausted while the final sentinel argument is being formatted. -/
def vlong : String :=
  String.mk (List.replicate 910 'v')

/-- A configuration whose formatted arguments need 1036 bytes, 12 more
than the 1024-byte backing store. -/
def cfgC1 : InitConfig :=
  { width := 1920, height := 1080, time_base_num := 1, time_base_den := 25,
    ticks_per_frame := 1, bit_depth := 8, sar_num := 0, sar_den := 1,
    options := some (some [("x", vlong)]) }

set_option maxRecDepth 100000 in
/-- C1 (refutation on the code): at a configuration whose formatted
arguments exceed the 1024-byte backing store, initialization still
returns success (0), records no error and no warning, and the stored
sentinel argument is the silently truncated prefix of its formatted
text — exactly the first 8 characters that snprintf could fit — so the
constructed list does contain a silently shortened argument and no hard
configuration error is reported. -/
theorem argument_truncation_silent :
    BUFSZ < cost (argTexts cfgC1) ∧
    (libturing_encode_init cfgC1 env0).ret = 0 ∧
    (libturing_encode_init cfgC1 env0).ub = false ∧
    (libturing_encode_init cfgC1 env0).args.getLast? = some "dummy-in" ∧
    "dummy-in" = "dummy-input-filename".take 8 ∧
    "dummy-in" ≠ "dummy-input-filename" ∧
    "dummy-input-filename" ∉ (libturing_encode_init cfgC1 env0).args ∧
    (libturing_encode_init cfgC1 env0).warnings = [] := by
  refine ⟨by decide, by decide, by decide, by decide, by decide, by decide,
    by decide, by decide⟩

end LibTuring
